import Mathlib

/-!
Shallow embedding of two OpenFPGA source files:

* vpr7_x2p/libarchfpga/SRC/check_circuit_library.cpp — the circuit-library
  validator (check_circuit_library and its helper checks);
* vpr7_x2p/vpr/SRC/fpga_x2p/verilog/verilog_preconfig_top_module.cpp — the
  pre-configured top-module netlist generator (global-port binding, benchmark
  I/O binding, bitstream loading).

C++ machine behaviour is modelled explicitly: size_t wrap-around appears as
arithmetic modulo 2^64, out-of-range container accesses and VTR_ASSERT /
exit(1) paths appear as error values of an Except / Option result, so that
"the process terminates here" and "this lookup is in range" are provable
statements.  Collaborator code that is not part of the two files (the
CircuitLibrary query surface, the bitstream-manager hierarchy walk, the
placement lookup, fixed name constants) is modelled from the specification;
each such definition is marked in its doc comment.
-/

deriving instance DecidableEq for Except

/-! ## Data model: circuit library (catalog) -/

/-- Circuit model type tags (e_spice_model_type), restricted to the tags the
checked code mentions. -/
inductive CircuitModelType
  | IOPAD
  | MUX
  | SRAM
  | SCFF
  | FF
  | LUT
  | WIRE
  | CHAN_WIRE
deriving DecidableEq

/-- Circuit port type tags (e_spice_model_port_type), restricted to the tags
the checked code mentions. -/
inductive CircuitPortType
  | INPUT
  | OUTPUT
  | CLOCK
  | SRAM
  | BL
  | WL
  | INOUT
deriving DecidableEq

/-- Modelled from the spec: a CircuitPort carries a port-type tag, a width,
the boolean attributes is_global / is_set / is_reset / is_config_enable /
is_prog, a default value and a library-scope name (port_lib_name). -/
structure CircuitPort where
  ptype : CircuitPortType
  size : Nat
  lib_name : String
  is_global : Bool
  is_set : Bool
  is_reset : Bool
  is_config_enable : Bool
  is_prog : Bool
  default_value : Nat
deriving DecidableEq

/-- Modelled from the spec: a CircuitModel has a name, a naming prefix
(field pfx here; the C++ accessor is model_prefix), a type tag and an
ordered list of ports. -/
structure CircuitModel where
  name : String
  pfx : String
  mtype : CircuitModelType
  ports : List CircuitPort
deriving DecidableEq

instance : Inhabited CircuitModel :=
  ⟨⟨"", "", CircuitModelType.IOPAD, []⟩⟩

/-- Modelled from the spec: the catalog is an ordered registry of circuit
models addressed by index (CircuitModelId), together with the registered
default model per type; default_model returns INVALID when no default model
of a type is registered, rendered here as an Option-valued defaults map. -/
structure CircuitLibrary where
  models : List CircuitModel
  defaults : CircuitModelType → Option Nat

/-- Number of models in the catalog (CircuitLibrary::num_models). -/
def CircuitLibrary.num_models (lib : CircuitLibrary) : Nat :=
  lib.models.length

/-- Modelled from the spec: CircuitLibrary::models_by_type returns the models
whose type tag matches, in catalog order. -/
def CircuitLibrary.models_by_type (lib : CircuitLibrary) (t : CircuitModelType) :
    List CircuitModel :=
  lib.models.filter (fun m => decide (m.mtype = t))

/-- Modelled from the spec: CircuitLibrary::model_ports_by_type with the
ignore-global flag; it returns the ports of the model with the requested
port type, skipping global ports when the flag is set. -/
def CircuitModel.ports_by_type_ig (m : CircuitModel) (pt : CircuitPortType)
    (ignore_global : Bool) : List CircuitPort :=
  m.ports.filter (fun p => decide (p.ptype = pt) && (!ignore_global || !p.is_global))

/-- Modelled from the spec: CircuitLibrary::model_ports_by_type without the
flag returns every port of the requested type. -/
def CircuitModel.ports_by_type (m : CircuitModel) (pt : CircuitPortType) :
    List CircuitPort :=
  m.ports.filter (fun p => decide (p.ptype = pt))

/-- All ports of the catalog in catalog order (CircuitLibrary::ports). -/
def CircuitLibrary.allPorts (lib : CircuitLibrary) : List CircuitPort :=
  lib.models.flatMap CircuitModel.ports

/-! ## Run-time faults of the validator

The C++ validator can leave normal control flow in two ways: an out-of-range
CircuitModelId lookup (undefined behaviour, modelled as an explicit fault)
and the exit(1) inside check_required_default_circuit_model. -/

/-- Abnormal outcomes of a validator run. -/
inductive RunError
  | invalidAccess
  | fatalDefault (t : CircuitModelType)
deriving DecidableEq

/-- The value of the size_t expression num_models() - 1: ordinary
subtraction for a positive count, wrap-around to 2^64 - 1 for zero. -/
def sizeT_sub_one (n : Nat) : Nat :=
  (n + (2 ^ 64 - 1)) % 2 ^ 64

/-- Indexed model-attribute lookup: model_name / model_prefix applied to
CircuitModelId(i).  An out-of-range index is a fault. -/
def CircuitLibrary.model_attr_at (lib : CircuitLibrary) (f : CircuitModel → String)
    (i : Nat) : Except RunError String :=
  match lib.models.get? i with
  | some m => Except.ok (f m)
  | none => Except.error RunError.invalidAccess

/-- Inner loop of check_circuit_library_unique_names (and of the
structurally identical check_circuit_library_unique_prefix): compare the
reference attribute against every candidate index in js, counting matches. -/
def check_unique_attr_inner (lib : CircuitLibrary) (f : CircuitModel → String)
    (i_attr : String) (js : List Nat) : Except RunError Nat :=
  js.foldlM
    (fun acc j => do
      let j_attr ← lib.model_attr_at f j
      if i_attr = j_attr then pure (acc + 1) else pure acc)
    0

/-- Common body of check_circuit_library_unique_names and
check_circuit_library_unique_prefix, which differ in the C++ source only in
the attribute accessor they call.  For each index i the loop skips the last
element (comparing i against the size_t value num_models() - 1) and otherwise
compares the attribute of model i against every model after it. -/
def check_circuit_library_unique_attr (lib : CircuitLibrary)
    (f : CircuitModel → String) : Except RunError Nat :=
  (List.range lib.num_models).foldlM
    (fun acc i =>
      if i = sizeT_sub_one lib.num_models then pure acc
      else do
        let i_attr ← lib.model_attr_at f i
        let inner ← check_unique_attr_inner lib f i_attr
          (List.range' (i + 1) (lib.num_models - (i + 1)))
        pure (acc + inner))
    0

/-- check_circuit_library_unique_names: count of model pairs sharing a name. -/
def check_circuit_library_unique_names (lib : CircuitLibrary) : Except RunError Nat :=
  check_circuit_library_unique_attr lib CircuitModel.name

/-- check_circuit_library_unique_prefix: count of model pairs sharing a
naming prefix. -/
def check_circuit_library_unique_pfx (lib : CircuitLibrary) : Except RunError Nat :=
  check_circuit_library_unique_attr lib CircuitModel.pfx

/-- Modelled from the spec: CircuitLibrary::is_input_port — a port is an
input port when its type tag is INPUT (spec section 3: every global port must
have port-type INPUT). -/
def CircuitPort.is_input_port (p : CircuitPort) : Bool :=
  decide (p.ptype = CircuitPortType.INPUT)

/-- check_circuit_library_ports: every global port must be an input port and
every set / reset / config_enable port must be global; each violating port is
one error. -/
def check_circuit_library_ports (lib : CircuitLibrary) : Nat :=
  lib.allPorts.countP (fun p => p.is_global && ! p.is_input_port) +
  lib.allPorts.countP
    (fun p => (p.is_set || p.is_reset || p.is_config_enable) && ! p.is_global)

/-- check_circuit_model_required: one error when no model of the requested
type exists. -/
def check_circuit_model_required (lib : CircuitLibrary)
    (t : CircuitModelType) : Nat :=
  if (lib.models_by_type t).length = 0 then 1 else 0

/-- check_one_circuit_model_port_required: for one model, one error per
requested port type with zero occurrences. -/
def check_one_circuit_model_port_required (m : CircuitModel)
    (port_types_to_check : List CircuitPortType) : Nat :=
  port_types_to_check.countP (fun pt => decide ((m.ports_by_type pt).length = 0))

/-- check_circuit_model_port_required: the per-model check applied to every
model of the requested type, summing the errors. -/
def check_circuit_model_port_required (lib : CircuitLibrary)
    (t : CircuitModelType) (port_types_to_check : List CircuitPortType) : Nat :=
  ((lib.models_by_type t).map
    (fun m => check_one_circuit_model_port_required m port_types_to_check)).sum

/-- check_one_circuit_model_port_size_required: one error when the port width
differs from the requested width. -/
def check_one_circuit_model_port_size_required (p : CircuitPort)
    (port_size_to_check : Nat) : Nat :=
  if port_size_to_check ≠ p.size then 1 else 0

/-- check_one_circuit_model_port_type_and_size_required: the ports of the
requested type are fetched (global ports skipped unless included); a count
mismatch is one error, then every fetched port of the wrong width is a
further error. -/
def check_one_circuit_model_port_type_and_size_required (m : CircuitModel)
    (pt : CircuitPortType) (num_ports_to_check : Nat) (port_size_to_check : Nat)
    (include_global_ports : Bool) : Nat :=
  (if num_ports_to_check ≠ (m.ports_by_type_ig pt (! include_global_ports)).length
    then 1 else 0) +
    ((m.ports_by_type_ig pt (! include_global_ports)).map
      (fun p => check_one_circuit_model_port_size_required p port_size_to_check)).sum

/-- check_sram_circuit_model_ports: asserts the model is an SRAM model
(assert failure modelled as none), requires exactly one non-global OUTPUT
port of width 2 and, when check_blwl is set, exactly one BL and one WL port
of width 1 each. -/
def check_sram_circuit_model_ports (m : CircuitModel) (check_blwl : Bool) :
    Option Nat :=
  if m.mtype = CircuitModelType.SRAM then
    let basic := check_one_circuit_model_port_type_and_size_required m
      CircuitPortType.OUTPUT 1 2 false
    if check_blwl = false then some basic
    else some (basic +
      check_one_circuit_model_port_type_and_size_required m CircuitPortType.BL 1 1 false +
      check_one_circuit_model_port_type_and_size_required m CircuitPortType.WL 1 1 false)
  else none

/-- check_required_default_circuit_model: when no default model of the type
is registered the process exits immediately (exit(1)), modelled as the fatal
error value; otherwise zero errors are contributed. -/
def check_required_default_circuit_model (lib : CircuitLibrary)
    (t : CircuitModelType) : Except RunError Nat :=
  match lib.defaults t with
  | none => Except.error (RunError.fatalDefault t)
  | some _ => Except.ok 0

/-- Port-type lists built by check_circuit_library for IOPAD models. -/
def iopad_port_types_required : List CircuitPortType :=
  [CircuitPortType.INPUT, CircuitPortType.OUTPUT, CircuitPortType.INOUT,
   CircuitPortType.SRAM]

/-- Port-type list built by check_circuit_library for MUX models. -/
def mux_port_types_required : List CircuitPortType :=
  [CircuitPortType.INPUT, CircuitPortType.OUTPUT, CircuitPortType.SRAM]

/-- Port-type list built by check_circuit_library for SRAM models. -/
def sram_port_types_required : List CircuitPortType :=
  [CircuitPortType.INPUT, CircuitPortType.OUTPUT]

/-- Port-type list built by check_circuit_library for SCFF models. -/
def scff_port_types_required : List CircuitPortType :=
  [CircuitPortType.CLOCK, CircuitPortType.INPUT, CircuitPortType.OUTPUT]

/-- Port-type list built by check_circuit_library for FF models. -/
def ff_port_types_required : List CircuitPortType :=
  [CircuitPortType.CLOCK, CircuitPortType.INPUT, CircuitPortType.OUTPUT]

/-- Port-type list built by check_circuit_library for LUT models. -/
def lut_port_types_required : List CircuitPortType :=
  [CircuitPortType.SRAM, CircuitPortType.INPUT, CircuitPortType.OUTPUT]

/-- check_circuit_library: the validate pass.  Checks 1-9 accumulate a
running error total; the three default-model checks abort the whole pass with
a fatal error when they fire.  An ok result n means the final
"Finished checking circuit library with n errors" line was reported. -/
def check_circuit_library (lib : CircuitLibrary) : Except RunError Nat :=
  match check_circuit_library_unique_names lib with
  | Except.error e => Except.error e
  | Except.ok e1 =>
    match check_circuit_library_unique_pfx lib with
    | Except.error e => Except.error e
    | Except.ok e2 =>
      let e3 := check_circuit_library_ports lib
      let e4 := check_circuit_model_required lib CircuitModelType.IOPAD
      let e5 := check_circuit_model_port_required lib CircuitModelType.IOPAD
        iopad_port_types_required
      let e6 := check_circuit_model_required lib CircuitModelType.MUX
      let e7 := check_circuit_model_port_required lib CircuitModelType.MUX
        mux_port_types_required
      let e8 := if (lib.models_by_type CircuitModelType.SRAM).length = 0 ∧
          (lib.models_by_type CircuitModelType.SCFF).length = 0 then 1 else 0
      let e9 := check_circuit_model_port_required lib CircuitModelType.SRAM
        sram_port_types_required
      let e10 := check_circuit_model_port_required lib CircuitModelType.SCFF
        scff_port_types_required
      let e11 := check_circuit_model_port_required lib CircuitModelType.FF
        ff_port_types_required
      let e12 := check_circuit_model_port_required lib CircuitModelType.LUT
        lut_port_types_required
      match check_required_default_circuit_model lib CircuitModelType.MUX with
      | Except.error e => Except.error e
      | Except.ok e13 =>
        match check_required_default_circuit_model lib CircuitModelType.CHAN_WIRE with
        | Except.error e => Except.error e
        | Except.ok e14 =>
          match check_required_default_circuit_model lib CircuitModelType.WIRE with
          | Except.error e => Except.error e
          | Except.ok e15 =>
            Except.ok (e1 + e2 + e3 + e4 + e5 + e6 + e7 + e8 + e9 + e10 +
              e11 + e12 + e13 + e14 + e15)

/-- The final report line "Finished checking circuit library with n errors"
is emitted exactly when the pass runs to completion; a fatal default-model
abort (or an invalid access) skips it. -/
def validate_report_line (lib : CircuitLibrary) : Option Nat :=
  match check_circuit_library lib with
  | Except.ok n => some n
  | Except.error _ => none

/-- Process exit code of the validate pass: 1 on a fatal default-model
abort, 1 when the reported error total is positive, 0 otherwise.  An invalid
access is undefined behaviour and has no defined exit code. -/
def validate_exit_code (lib : CircuitLibrary) : Option Nat :=
  match check_circuit_library lib with
  | Except.error (RunError.fatalDefault _) => some 1
  | Except.error RunError.invalidAccess => none
  | Except.ok n => some (if 0 < n then 1 else 0)

/-! ## Pure counting layer for the uniqueness checks -/

/-- Attribute of the model at index i, over the projected attribute list. -/
def attrD (ns : List String) (i : Nat) : String :=
  ns.getD i ""

/-- Matches contributed by the inner loop run for reference index i. -/
def pairCountFrom (ns : List String) (i : Nat) : Nat :=
  ((List.range' (i + 1) (ns.length - (i + 1))).map
    (fun j => if attrD ns i = attrD ns j then 1 else 0)).sum

/-- Total of the double loop, including the skip of the index equal to the
size_t value length - 1. -/
def pairCountAll (ns : List String) : Nat :=
  ((List.range ns.length).map
    (fun i => if i = sizeT_sub_one ns.length then 0 else pairCountFrom ns i)).sum

/-- Structural pair count: for each element, the number of equal elements
after it. -/
def listPairCount : List String → Nat
  | [] => 0
  | x :: xs => xs.countP (fun y => decide (x = y)) + listPairCount xs

/-- A monadic fold over Except in which every step succeeds equals the pure
fold of the step results. -/
theorem foldlM_except_eq_ok {α β E : Type} (g : β → α → Except E β)
    (g2 : β → α → β) (l : List α) :
    (∀ b a, a ∈ l → g b a = Except.ok (g2 b a)) →
    ∀ b, l.foldlM g b = Except.ok (l.foldl g2 b) := by
  induction l with
  | nil => intro _ b; rfl
  | cons x xs ih =>
    intro h b
    rw [List.foldlM_cons, h b x (List.mem_cons_self x xs)]
    have hb : (Except.ok (g2 b x) >>= fun b2 => xs.foldlM g b2) =
        xs.foldlM g (g2 b x) := rfl
    rw [hb, List.foldl_cons]
    exact ih (fun b2 a ha => h b2 a (List.mem_cons_of_mem x ha)) (g2 b x)

/-- Pure in the Except monad is the ok constructor. -/
theorem except_pure_eq_ok {E α : Type} (v : α) :
    (pure v : Except E α) = Except.ok v :=
  rfl

/-- Binding a successful Except value just applies the continuation. -/
theorem except_ok_bind {E α β : Type} (v : α) (k : α → Except E β) :
    (Except.ok v >>= k) = k v :=
  rfl

/-- In-range attribute lookups succeed and return the projected attribute. -/
theorem model_attr_at_ok (lib : CircuitLibrary) (f : CircuitModel → String)
    (i : Nat) (h : i < lib.num_models) :
    lib.model_attr_at f i = Except.ok (attrD (lib.models.map f) i) := by
  unfold CircuitLibrary.model_attr_at attrD
  have h2 : i < lib.models.length := h
  rw [List.get?_eq_getElem?, List.getElem?_eq_getElem h2]
  rw [List.getD_eq_getElem?_getD, List.getElem?_map, List.getElem?_eq_getElem h2]
  rfl

/-- Counting fold written with an if-then-else accumulator equals the sum of
the per-element indicator values. -/
theorem foldl_ite_count {α : Type} (p : α → Prop) [DecidablePred p]
    (l : List α) :
    ∀ a, l.foldl (fun acc x => if p x then acc + 1 else acc) a =
      a + (l.map (fun x => if p x then 1 else 0)).sum := by
  induction l with
  | nil => intro a; simp
  | cons x xs ih =>
    intro a
    by_cases h : p x <;> simp [h, ih] <;> omega

/-- Guarded accumulating fold equals the sum of the per-element guarded
contributions. -/
theorem foldl_guard_add (q : Nat → Prop) [DecidablePred q] (c : Nat → Nat)
    (l : List Nat) :
    ∀ a, l.foldl (fun acc i => if q i then acc else acc + c i) a =
      a + (l.map (fun i => if q i then 0 else c i)).sum := by
  induction l with
  | nil => intro a; simp
  | cons x xs ih =>
    intro a
    by_cases h : q x <;> simp [h, ih] <;> omega

/-- The inner comparison loop, run over in-range candidate indices, succeeds
and counts the attribute matches. -/
theorem check_unique_attr_inner_ok (lib : CircuitLibrary)
    (f : CircuitModel → String) (s : String) (js : List Nat)
    (hjs : ∀ j ∈ js, j < lib.num_models) :
    check_unique_attr_inner lib f s js =
      Except.ok ((js.map
        (fun j => if s = attrD (lib.models.map f) j then 1 else 0)).sum) := by
  unfold check_unique_attr_inner
  rw [foldlM_except_eq_ok _
    (fun acc j => if s = attrD (lib.models.map f) j then acc + 1 else acc) js
    ?hstep 0]
  · rw [foldl_ite_count (fun j => s = attrD (lib.models.map f) j) js 0]
    rw [Nat.zero_add]
  case hstep =>
    intro b a ha
    have hma := model_attr_at_ok lib f a (hjs a ha)
    by_cases hc : s = attrD (lib.models.map f) a
    · simp [hma, except_ok_bind, except_pure_eq_ok, hc]
    · simp [hma, except_ok_bind, except_pure_eq_ok, hc]

/-- The uniqueness check never faults: every index the loops visit is in
range, so the run always completes with the guarded double-loop count. -/
theorem check_unique_attr_eq_pairCountAll (lib : CircuitLibrary)
    (f : CircuitModel → String) :
    check_circuit_library_unique_attr lib f =
      Except.ok (pairCountAll (lib.models.map f)) := by
  unfold check_circuit_library_unique_attr pairCountAll
  have hlen : (lib.models.map f).length = lib.num_models := by
    simp [CircuitLibrary.num_models]
  rw [hlen]
  rw [foldlM_except_eq_ok _
    (fun acc i => if i = sizeT_sub_one lib.num_models then acc
      else acc + pairCountFrom (lib.models.map f) i) _ ?hstep 0]
  · rw [foldl_guard_add (fun i => i = sizeT_sub_one lib.num_models)
      (fun i => pairCountFrom (lib.models.map f) i) _ 0]
    rw [Nat.zero_add]
  case hstep =>
    intro b i hi
    have hi2 : i < lib.num_models := List.mem_range.mp hi
    by_cases hq : i = sizeT_sub_one lib.num_models
    · simp only [if_pos hq, except_pure_eq_ok]
    · simp only [if_neg hq]
      have hma := model_attr_at_ok lib f i hi2
      have hjs : ∀ j ∈ List.range' (i + 1) (lib.num_models - (i + 1)),
          j < lib.num_models := by
        intro j hj
        have := List.mem_range'_1.mp hj
        omega
      have hinner := check_unique_attr_inner_ok lib f
        (attrD (lib.models.map f) i)
        (List.range' (i + 1) (lib.num_models - (i + 1))) hjs
      have hpcf : pairCountFrom (lib.models.map f) i =
          ((List.range' (i + 1) (lib.num_models - (i + 1))).map
            (fun j => if attrD (lib.models.map f) i = attrD (lib.models.map f) j
              then 1 else 0)).sum := by
        unfold pairCountFrom
        rw [hlen]
      rw [hpcf]
      simp [hma, hinner, except_ok_bind, except_pure_eq_ok]

/-- For a positive count below 2^64 the size_t expression n - 1 is the
ordinary predecessor. -/
theorem sizeT_sub_one_eq (n : Nat) (h1 : 1 ≤ n) (h2 : n < 2 ^ 64) :
    sizeT_sub_one n = n - 1 := by
  unfold sizeT_sub_one
  have h3 : n + (2 ^ 64 - 1) = (n - 1) + 2 ^ 64 := by omega
  rw [h3, Nat.add_mod_right]
  exact Nat.mod_eq_of_lt (by omega)

/-- The guard that skips the last outer index changes nothing: the inner
range of the last index is empty anyway. -/
theorem pairCountAll_eq_noGuard (ns : List String) (h : ns.length < 2 ^ 64) :
    pairCountAll ns =
      ((List.range ns.length).map (fun i => pairCountFrom ns i)).sum := by
  unfold pairCountAll
  congr 1
  apply List.map_congr_left
  intro i hi
  have hi2 : i < ns.length := List.mem_range.mp hi
  by_cases hq : i = sizeT_sub_one ns.length
  · rw [if_pos hq]
    have h1 : 1 ≤ ns.length := by omega
    have : i = ns.length - 1 := by rw [hq, sizeT_sub_one_eq ns.length h1 h]
    subst this
    unfold pairCountFrom
    have : ns.length - (ns.length - 1 + 1) = 0 := by omega
    rw [this]
    rfl
  · rw [if_neg hq]

/-- Shifting the reference index across a cons: the inner count of index
i + 1 in x :: xs equals the inner count of index i in xs. -/
theorem pairCountFrom_cons_succ (x : String) (xs : List String) (i : Nat) :
    pairCountFrom (x :: xs) (i + 1) = pairCountFrom xs i := by
  unfold pairCountFrom
  rw [List.length_cons]
  have h1 : xs.length + 1 - (i + 1 + 1) = xs.length - (i + 1) := by omega
  rw [h1]
  have h2 : i + 1 + 1 = 1 + (i + 1) := by omega
  rw [h2, ← List.map_add_range', List.map_map]
  congr 1
  apply List.map_congr_left
  intro j hj
  show (if attrD (x :: xs) (i + 1) = attrD (x :: xs) (1 + j) then 1 else 0) = _
  have h4 : 1 + j = j + 1 := by omega
  rw [h4]
  have h5 : attrD (x :: xs) (i + 1) = attrD xs i := rfl
  have h6 : attrD (x :: xs) (j + 1) = attrD xs j := rfl
  rw [h5, h6]

/-- Indicator sums over all positions of a list count the matching
elements. -/
theorem sum_map_range_count (x : String) (xs : List String) :
    ((List.range xs.length).map
      (fun j => if x = attrD xs j then 1 else 0)).sum =
      xs.countP (fun y => decide (x = y)) := by
  induction xs with
  | nil => rfl
  | cons y ys ih =>
    rw [List.length_cons, List.range_succ_eq_map, List.map_cons, List.map_map,
      List.sum_cons]
    have hcomp : ((fun j => if x = attrD (y :: ys) j then 1 else 0) ∘ Nat.succ) =
        (fun j => if x = attrD ys j then 1 else 0) := by
      funext j
      rfl
    rw [hcomp, ih, List.countP_cons]
    have h0 : attrD (y :: ys) 0 = y := rfl
    rw [h0]
    by_cases hxy : x = y
    · simp [hxy]
      omega
    · simp [hxy]

/-- The unguarded double-loop count equals the structural pair count. -/
theorem sum_pairCountFrom_eq_listPairCount (ns : List String) :
    ((List.range ns.length).map (fun i => pairCountFrom ns i)).sum =
      listPairCount ns := by
  induction ns with
  | nil => rfl
  | cons x xs ih =>
    rw [List.length_cons, List.range_succ_eq_map, List.map_cons, List.map_map,
      List.sum_cons]
    have hcomp : ((fun i => pairCountFrom (x :: xs) i) ∘ Nat.succ) =
        (fun i => pairCountFrom xs i) := by
      funext i
      exact pairCountFrom_cons_succ x xs i
    rw [hcomp, ih]
    have h0 : pairCountFrom (x :: xs) 0 = xs.countP (fun y => decide (x = y)) := by
      unfold pairCountFrom
      rw [List.length_cons]
      have h1 : xs.length + 1 - (0 + 1) = xs.length := by omega
      rw [h1]
      have h2 : (0 : Nat) + 1 = 1 := by omega
      rw [h2, List.range'_eq_map_range, List.map_map]
      have hcomp2 : ((fun j => if attrD (x :: xs) 0 = attrD (x :: xs) j
            then 1 else 0) ∘ (fun j => 1 + j)) =
          (fun j => if x = attrD xs j then 1 else 0) := by
        funext j
        show (if attrD (x :: xs) 0 = attrD (x :: xs) (1 + j) then 1 else 0) = _
        have h4 : 1 + j = j + 1 := by omega
        rw [h4]
        rfl
      rw [hcomp2]
      exact sum_map_range_count x xs
    rw [h0]
    rfl

/-- When every element other than s occurs exactly once, the structural pair
count is the number of unordered pairs of occurrences of s. -/
theorem listPairCount_choose (s : String) :
    ∀ ns : List String,
      (∀ a ∈ ns, a ≠ s → ns.countP (fun y => decide (a = y)) = 1) →
      listPairCount ns = (ns.countP (fun y => decide (s = y))).choose 2 := by
  intro ns
  induction ns with
  | nil => intro _; rfl
  | cons x xs ih =>
    intro h
    have hxs : ∀ a ∈ xs, a ≠ s → xs.countP (fun y => decide (a = y)) = 1 := by
      intro a ha hane
      have h2 := h a (List.mem_cons_of_mem x ha) hane
      rw [List.countP_cons] at h2
      by_cases hax : a = x
      · subst hax
        simp only [decide_eq_true_eq, if_true] at h2
        have hpos : 0 < xs.countP (fun y => decide (a = y)) :=
          List.countP_pos_iff.mpr ⟨a, ha, by simp⟩
        omega
      · simp only [decide_eq_true_eq] at h2
        rw [if_neg hax] at h2
        omega
    by_cases hx : x = s
    · subst hx
      show xs.countP (fun y => decide (x = y)) + listPairCount xs = _
      rw [ih hxs, List.countP_cons]
      simp only [decide_eq_true_eq, if_true]
      have hch : (xs.countP (fun y => decide (x = y)) + 1).choose 2 =
          (xs.countP (fun y => decide (x = y))).choose 1 +
            (xs.countP (fun y => decide (x = y))).choose 2 :=
        Nat.choose_succ_succ' (xs.countP (fun y => decide (x = y))) 1
      rw [hch, Nat.choose_one_right]
    · have hx1 := h x (List.mem_cons_self x xs) hx
      rw [List.countP_cons] at hx1
      simp only [decide_eq_true_eq, if_true] at hx1
      have hx0 : xs.countP (fun y => decide (x = y)) = 0 := by omega
      show xs.countP (fun y => decide (x = y)) + listPairCount xs = _
      rw [hx0, ih hxs, List.countP_cons]
      have hsx : ¬ (s = x) := fun hh => hx hh.symm
      simp only [decide_eq_true_eq]
      rw [if_neg hsx]
      simp

/-- Below the size_t wrap bound, the unique-attribute check returns the
structural pair count of the attribute list. -/
theorem check_unique_attr_eq_listPairCount (lib : CircuitLibrary)
    (f : CircuitModel → String) (h : lib.num_models < 2 ^ 64) :
    check_circuit_library_unique_attr lib f =
      Except.ok (listPairCount (lib.models.map f)) := by
  rw [check_unique_attr_eq_pairCountAll]
  have hlen : (lib.models.map f).length < 2 ^ 64 := by
    simpa [CircuitLibrary.num_models] using h
  rw [pairCountAll_eq_noGuard _ hlen, sum_pairCountFrom_eq_listPairCount]

/-- A list with fewer than two elements has no pairs. -/
theorem listPairCount_small (ns : List String) (h : ns.length < 2) :
    listPairCount ns = 0 := by
  match ns, h with
  | [], _ => rfl
  | [x], _ => simp [listPairCount]

/-! ## Concrete catalogs used as witnesses and counterexamples -/

/-- A plain 1-bit INPUT port. -/
def port_in : CircuitPort :=
  ⟨CircuitPortType.INPUT, 1, "in", false, false, false, false, false, 0⟩

/-- A plain 1-bit OUTPUT port. -/
def port_out : CircuitPort :=
  ⟨CircuitPortType.OUTPUT, 1, "out", false, false, false, false, false, 0⟩

/-- A plain 1-bit INOUT port. -/
def port_inout : CircuitPort :=
  ⟨CircuitPortType.INOUT, 1, "io", false, false, false, false, false, 0⟩

/-- A plain 1-bit SRAM port. -/
def port_sram : CircuitPort :=
  ⟨CircuitPortType.SRAM, 1, "sram", false, false, false, false, false, 0⟩

/-- A 3-bit OUTPUT port (wrong width for an SRAM model output). -/
def port_out_w3 : CircuitPort :=
  ⟨CircuitPortType.OUTPUT, 3, "out", false, false, false, false, false, 0⟩

/-- An IOPAD model with all four required port types. -/
def iopadModel : CircuitModel :=
  ⟨"iopad", "iopad_", CircuitModelType.IOPAD,
    [port_in, port_out, port_inout, port_sram]⟩

/-- A MUX model with all three required port types. -/
def muxModel : CircuitModel :=
  ⟨"mux", "mux_", CircuitModelType.MUX, [port_in, port_out, port_sram]⟩

/-- An SRAM model whose one OUTPUT port has width 3 instead of 2. -/
def sramModelW3 : CircuitModel :=
  ⟨"sram", "sram_", CircuitModelType.SRAM, [port_in, port_out_w3]⟩

/-- A channel-wire model. -/
def chanWireModel : CircuitModel :=
  ⟨"chanw", "chanw_", CircuitModelType.CHAN_WIRE, []⟩

/-- A wire model. -/
def wireModel : CircuitModel :=
  ⟨"wirem", "wirem_", CircuitModelType.WIRE, []⟩

/-- Defaults registered for MUX, CHAN_WIRE and WIRE. -/
def allDefaults : CircuitModelType → Option Nat := fun t =>
  match t with
  | CircuitModelType.MUX => some 1
  | CircuitModelType.CHAN_WIRE => some 3
  | CircuitModelType.WIRE => some 4
  | _ => none

/-- A catalog that passes every accumulated check of the validate pass but
whose SRAM model has a width-3 output. -/
def sramW3Lib : CircuitLibrary :=
  ⟨[iopadModel, muxModel, sramModelW3, chanWireModel, wireModel], allDefaults⟩

/-- The same catalog with no default registered for WIRE. -/
def wireDefaultMissingLib : CircuitLibrary :=
  ⟨[iopadModel, muxModel, sramModelW3, chanWireModel, wireModel],
    fun t =>
      match t with
      | CircuitModelType.MUX => some 1
      | CircuitModelType.CHAN_WIRE => some 3
      | _ => none⟩

/-- The empty catalog. -/
def emptyLib : CircuitLibrary :=
  ⟨[], fun _ => none⟩

/-- A MUX model that shares its name with muxModel but not its prefix. -/
def muxModelDup : CircuitModel :=
  ⟨"mux", "mux2_", CircuitModelType.MUX, [port_in, port_out, port_sram]⟩

/-- A catalog in which exactly two models share the name "mux" and all other
names are unique, with all three required defaults registered. -/
def dupNameLib : CircuitLibrary :=
  ⟨[iopadModel, muxModel, muxModelDup, chanWireModel, wireModel], allDefaults⟩

/-! ## Claims C1, C2, C8, C9, C10 — the validate pass -/

/-- C1: if no default circuit model is registered for MUX, CHAN_WIRE or WIRE
(checked in that order), the validate pass terminates the process at the
first missing default: the result is the fatal error naming that first
missing type, the remaining default checks do not run (a later missing type
is never the reported one while an earlier one is missing), and the final
error-count report line is not emitted — for every catalog, hence regardless
of the error total accumulated by the earlier checks, including zero. -/
theorem claim_C1 (lib : CircuitLibrary) :
    (lib.defaults CircuitModelType.MUX = none →
      check_circuit_library lib =
        Except.error (RunError.fatalDefault CircuitModelType.MUX) ∧
      validate_report_line lib = none) ∧
    ((lib.defaults CircuitModelType.MUX).isSome →
      lib.defaults CircuitModelType.CHAN_WIRE = none →
      check_circuit_library lib =
        Except.error (RunError.fatalDefault CircuitModelType.CHAN_WIRE) ∧
      validate_report_line lib = none) ∧
    ((lib.defaults CircuitModelType.MUX).isSome →
      (lib.defaults CircuitModelType.CHAN_WIRE).isSome →
      lib.defaults CircuitModelType.WIRE = none →
      check_circuit_library lib =
        Except.error (RunError.fatalDefault CircuitModelType.WIRE) ∧
      validate_report_line lib = none) := by
  have hn : check_circuit_library_unique_names lib =
      Except.ok (pairCountAll (lib.models.map CircuitModel.name)) :=
    check_unique_attr_eq_pairCountAll lib CircuitModel.name
  have hp : check_circuit_library_unique_pfx lib =
      Except.ok (pairCountAll (lib.models.map CircuitModel.pfx)) :=
    check_unique_attr_eq_pairCountAll lib CircuitModel.pfx
  refine ⟨?_, ?_, ?_⟩
  · intro hmux
    have hcl : check_circuit_library lib =
        Except.error (RunError.fatalDefault CircuitModelType.MUX) := by
      unfold check_circuit_library
      simp only [hn, hp, check_required_default_circuit_model, hmux]
    exact ⟨hcl, by unfold validate_report_line; rw [hcl]⟩
  · intro hmux hcw
    obtain ⟨v1, hv1⟩ := Option.isSome_iff_exists.mp hmux
    have hcl : check_circuit_library lib =
        Except.error (RunError.fatalDefault CircuitModelType.CHAN_WIRE) := by
      unfold check_circuit_library
      simp only [hn, hp, check_required_default_circuit_model, hv1, hcw]
    exact ⟨hcl, by unfold validate_report_line; rw [hcl]⟩
  · intro hmux hcw hw
    obtain ⟨v1, hv1⟩ := Option.isSome_iff_exists.mp hmux
    obtain ⟨v2, hv2⟩ := Option.isSome_iff_exists.mp hcw
    have hcl : check_circuit_library lib =
        Except.error (RunError.fatalDefault CircuitModelType.WIRE) := by
      unfold check_circuit_library
      simp only [hn, hp, check_required_default_circuit_model, hv1, hv2, hw]
    exact ⟨hcl, by unfold validate_report_line; rw [hcl]⟩

/-- C1 witness: removing the WIRE default from an otherwise fully clean
catalog aborts fatally at the WIRE default check, the report line is not
produced, and indeed the accumulated checks would have reported no error. -/
theorem claim_C1_witness :
    (check_circuit_library wireDefaultMissingLib =
      Except.error (RunError.fatalDefault CircuitModelType.WIRE) ∧
     validate_report_line wireDefaultMissingLib = none) ∧
    check_circuit_library_unique_names wireDefaultMissingLib = Except.ok 0 := by
  refine ⟨(claim_C1 wireDefaultMissingLib).2.2 (by decide) (by decide) (by decide), ?_⟩
  decide

/-- C2: in a catalog below the size_t bound in which k models (k at least 2)
share the name s and every other name is unique, the name-uniqueness check
counts exactly C(k, 2) errors — one per unordered pair of the k models — and,
with the three required default models registered, the validate pass reports
and the process exits with a nonzero code. -/
theorem claim_C2 (lib : CircuitLibrary) (s : String)
    (hsize : lib.num_models < 2 ^ 64)
    (hk : 2 ≤ (lib.models.map CircuitModel.name).countP (fun y => decide (s = y)))
    (huniq : ∀ a ∈ lib.models.map CircuitModel.name, a ≠ s →
      (lib.models.map CircuitModel.name).countP (fun y => decide (a = y)) = 1)
    (hmux : (lib.defaults CircuitModelType.MUX).isSome)
    (hcw : (lib.defaults CircuitModelType.CHAN_WIRE).isSome)
    (hw : (lib.defaults CircuitModelType.WIRE).isSome) :
    check_circuit_library_unique_names lib =
      Except.ok (((lib.models.map CircuitModel.name).countP
        (fun y => decide (s = y))).choose 2) ∧
    validate_exit_code lib = some 1 := by
  have hnames : check_circuit_library_unique_names lib =
      Except.ok (listPairCount (lib.models.map CircuitModel.name)) :=
    check_unique_attr_eq_listPairCount lib CircuitModel.name hsize
  have hcount := listPairCount_choose s (lib.models.map CircuitModel.name) huniq
  have hpfx : check_circuit_library_unique_pfx lib =
      Except.ok (pairCountAll (lib.models.map CircuitModel.pfx)) :=
    check_unique_attr_eq_pairCountAll lib CircuitModel.pfx
  refine ⟨by rw [hnames, hcount], ?_⟩
  obtain ⟨v1, hv1⟩ := Option.isSome_iff_exists.mp hmux
  obtain ⟨v2, hv2⟩ := Option.isSome_iff_exists.mp hcw
  obtain ⟨v3, hv3⟩ := Option.isSome_iff_exists.mp hw
  have hpos : 0 < listPairCount (lib.models.map CircuitModel.name) := by
    rw [hcount]
    exact Nat.choose_pos hk
  unfold validate_exit_code check_circuit_library
  simp only [hnames, hpfx, check_required_default_circuit_model, hv1, hv2, hv3]
  have hif : ∀ n : Nat, 0 < n → (if 0 < n then 1 else 0) = 1 := by
    intro n hn
    rw [if_pos hn]
  rw [hif _ (by omega)]

/-- C2 witness: two models named mux in an otherwise clean catalog give
exactly C(2, 2) = 1 name-uniqueness error and a nonzero process exit. -/
theorem claim_C2_witness :
    check_circuit_library_unique_names dupNameLib = Except.ok 1 ∧
    validate_exit_code dupNameLib = some 1 :=
  claim_C2 dupNameLib "mux" (by decide) (by decide) (by decide) (by decide)
    (by decide) (by decide)

/-- C9: for a catalog with zero IOPAD models the required-model check for
IOPAD counts exactly one error while the per-model IOPAD required-port-type
check contributes zero errors, because it only iterates over existing IOPAD
models. -/
theorem claim_C9 (lib : CircuitLibrary)
    (h : lib.models_by_type CircuitModelType.IOPAD = []) :
    check_circuit_model_required lib CircuitModelType.IOPAD = 1 ∧
    check_circuit_model_port_required lib CircuitModelType.IOPAD
      iopad_port_types_required = 0 := by
  constructor
  · unfold check_circuit_model_required
    rw [h]
    rfl
  · unfold check_circuit_model_port_required
    rw [h]
    rfl

/-- C9 witness: the empty catalog has no IOPAD models; the existence check
counts one error and the four port-type checks count none. -/
theorem claim_C9_witness :
    check_circuit_model_required emptyLib CircuitModelType.IOPAD = 1 ∧
    check_circuit_model_port_required emptyLib CircuitModelType.IOPAD
      iopad_port_types_required = 0 :=
  claim_C9 emptyLib (by decide)

/-- C10: for every catalog with fewer than two models both uniqueness checks
finish with zero errors and an ok result, i.e. no model lookup with an
invalid index is ever performed (an out-of-range lookup would surface as the
invalid-access error value): although for an empty catalog the size_t
expression num_models() - 1 wraps around, neither loop body executes. -/
theorem claim_C10 (lib : CircuitLibrary) (h : lib.num_models < 2) :
    check_circuit_library_unique_names lib = Except.ok 0 ∧
    check_circuit_library_unique_pfx lib = Except.ok 0 := by
  have h64 : lib.num_models < 2 ^ 64 := by
    have : (2 : Nat) < 2 ^ 64 := by norm_num
    omega
  have hlen : (lib.models.map CircuitModel.name).length < 2 := by
    simpa [CircuitLibrary.num_models] using h
  have hlen2 : (lib.models.map CircuitModel.pfx).length < 2 := by
    simpa [CircuitLibrary.num_models] using h
  constructor
  · have := check_unique_attr_eq_listPairCount lib CircuitModel.name h64
    rw [listPairCount_small _ hlen] at this
    exact this
  · have := check_unique_attr_eq_listPairCount lib CircuitModel.pfx h64
    rw [listPairCount_small _ hlen2] at this
    exact this

/-- C10 witness: on the empty catalog both uniqueness checks return ok 0. -/
theorem claim_C10_witness :
    check_circuit_library_unique_names emptyLib = Except.ok 0 ∧
    check_circuit_library_unique_pfx emptyLib = Except.ok 0 :=
  claim_C10 emptyLib (by decide)

/-- C8 counterexample: a catalog whose SRAM model exposes exactly one
non-global OUTPUT port of the wrong width (3 instead of 2) sails through the
validate pass with zero errors and exit code 0 — the validate pass never
invokes the SRAM output-width check, refuting the claim that it counts an
error for every such SRAM model. -/
theorem claim_C8_counterexample :
    sramModelW3.mtype = CircuitModelType.SRAM ∧
    sramModelW3 ∈ sramW3Lib.models ∧
    ¬ ((sramModelW3.ports_by_type_ig CircuitPortType.OUTPUT true).length = 1 ∧
       ∀ p ∈ sramModelW3.ports_by_type_ig CircuitPortType.OUTPUT true,
         p.size = 2) ∧
    check_circuit_library sramW3Lib = Except.ok 0 ∧
    validate_exit_code sramW3Lib = some 0 := by
  decide

/-- C8 (amended): the SRAM output-shape rule lives in
check_sram_circuit_model_ports, which the validate pass does not call: that
helper counts at least one error for every SRAM model that does not expose
exactly one non-global OUTPUT port of width 2 (a count mismatch is one
error, and each fetched port of wrong width is a separate error), for either
value of the check_blwl flag; the validate pass itself only checks that each
SRAM model has at least one INPUT and one OUTPUT port. -/
theorem claim_C8_amended (m : CircuitModel) (blwl : Bool)
    (ht : m.mtype = CircuitModelType.SRAM)
    (hbad : ¬ ((m.ports_by_type_ig CircuitPortType.OUTPUT true).length = 1 ∧
      ∀ p ∈ m.ports_by_type_ig CircuitPortType.OUTPUT true, p.size = 2)) :
    ∃ k, check_sram_circuit_model_ports m blwl = some k ∧ 1 ≤ k := by
  have hbasic : 1 ≤ check_one_circuit_model_port_type_and_size_required m
      CircuitPortType.OUTPUT 1 2 false := by
    unfold check_one_circuit_model_port_type_and_size_required
    push_neg at hbad
    by_cases hlen : (m.ports_by_type_ig CircuitPortType.OUTPUT true).length = 1
    · obtain ⟨p, hp, hps⟩ := hbad hlen
      have hval : check_one_circuit_model_port_size_required p 2 = 1 := by
        unfold check_one_circuit_model_port_size_required
        rw [if_pos (fun hh => hps hh.symm)]
      have hmem : check_one_circuit_model_port_size_required p 2 ∈
          ((m.ports_by_type_ig CircuitPortType.OUTPUT true).map
            (fun q => check_one_circuit_model_port_size_required q 2)) :=
        List.mem_map_of_mem _ hp
      have hsum : 1 ≤ ((m.ports_by_type_ig CircuitPortType.OUTPUT true).map
          (fun q => check_one_circuit_model_port_size_required q 2)).sum := by
        rw [← hval]
        exact List.single_le_sum (fun x _ => Nat.zero_le x) _ hmem
      simp only [Bool.not_false]
      rw [if_neg (not_not_intro hlen.symm)]
      omega
    · simp only [Bool.not_false]
      rw [if_pos (fun hh => hlen hh.symm)]
      omega
  unfold check_sram_circuit_model_ports
  rw [if_pos ht]
  by_cases hb : blwl = false
  · rw [if_pos hb]
    exact ⟨_, rfl, hbasic⟩
  · rw [if_neg hb]
    exact ⟨_, rfl, by omega⟩

/-- C8 witness: the width-3 SRAM model is charged at least one error by
check_sram_circuit_model_ports. -/
theorem claim_C8_witness :
    ∃ k, check_sram_circuit_model_ports sramModelW3 false = some k ∧ 1 ≤ k :=
  claim_C8_amended sramModelW3 false (by decide) (by decide)

/-! ## Data model: pre-configured top-module generation

The generator emits text through a small set of emission primitives
(print_verilog_wire_connection, print_verilog_wire_constant_values).  The
spec treats the emitter as an external collaborator and specifies only the
calls made into it, so the embedding records the emission calls as values. -/

/-- Modelled from the spec: a BasicPort is a named bit range (name, LSB,
MSB); BasicPort(name, width) is the range [0, width). -/
structure BasicPort where
  name : String
  lsb : Nat
  msb : Nat
deriving DecidableEq

/-- Width of a port (BasicPort::get_width): msb - lsb + 1. -/
def BasicPort.get_width (p : BasicPort) : Nat :=
  p.msb + 1 - p.lsb

/-- Pins of a port (BasicPort::pins): the list lsb, lsb+1, ..., msb. -/
def BasicPort.pins (p : BasicPort) : List Nat :=
  List.range' p.lsb p.get_width

/-- One emission call into the netlist emitter: a wire connection between
two port slices, or a constant-value assignment onto a port slice. -/
inductive VerilogStmt
  | wireConnection (src : BasicPort) (dst : BasicPort)
  | constantValues (port : BasicPort) (values : List Nat)
deriving DecidableEq

/-- Modelled from the spec: the fixed instance name of the FPGA top module
inside the pre-configured wrapper (formal_verification_top_module_uut_name;
the concrete spelling is opaque to every claim). -/
def formal_verification_top_module_uut_name : String :=
  "FPGA_DUT"

/-- Modelled from the spec: the fixed postfix appended to benchmark port
names (formal_verification_top_module_port_postfix; concrete spelling opaque
to every claim). -/
def formal_verification_port_suffix : String :=
  "_fm"

/-- Modelled from the spec: the fixed generated name of the configuration
chain data-out signal (generate_configuration_chain_data_out_name; concrete
spelling opaque to every claim). -/
def config_chain_data_out_name : String :=
  "ccff_tail"

/-! ## GlobalPortBinder: print_verilog_preconfig_top_module_connect_global_ports -/

/-- Linear scan for the circuit port whose library name equals the module
global port name; the C++ loop takes the first match and breaks. -/
def find_linked_circuit_port (global_ports : List CircuitPort) (nm : String) :
    Option CircuitPort :=
  global_ports.find? (fun p => decide (nm = p.lib_name))

/-- Loop body of print_verilog_preconfig_top_module_connect_global_ports for
one global port of the top module: link the circuit port by name
(VTR_ASSERT a match exists), VTR_ASSERT the widths agree, then either wire
every pin to every benchmark clock (non-programming CLOCK ports) or emit one
constant-values call covering the whole port with the circuit port default
value replicated.  Assertion failures are none. -/
def connect_one_global_port (global_ports : List CircuitPort)
    (benchmark_clock_port_names : List String) (mp : BasicPort) :
    Option (List VerilogStmt) := do
  let cp ← find_linked_circuit_port global_ports mp.name
  if mp.get_width = cp.size then
    if cp.ptype = CircuitPortType.CLOCK ∧ cp.is_prog = false then
      some (mp.pins.flatMap (fun pin =>
        benchmark_clock_port_names.map (fun cn =>
          VerilogStmt.wireConnection (BasicPort.mk mp.name pin pin)
            (BasicPort.mk (cn ++ formal_verification_port_suffix) 0 0))))
    else
      some [VerilogStmt.constantValues mp
        (List.replicate mp.get_width cp.default_value)]
  else
    none

/-- The whole global-port connection pass: the loop body applied to every
global port of the top module in order, emissions concatenated. -/
def connect_global_ports (module_global_ports : List BasicPort)
    (global_ports : List CircuitPort)
    (benchmark_clock_port_names : List String) : Option (List VerilogStmt) :=
  (module_global_ports.mapM
    (connect_one_global_port global_ports benchmark_clock_port_names)).map
    List.flatten

/-- A constant-values emission call. -/
def is_constant_stmt (s : VerilogStmt) : Bool :=
  match s with
  | VerilogStmt.constantValues _ _ => true
  | VerilogStmt.wireConnection _ _ => false

/-- A constant-values emission call whose target slice is a single bit. -/
def is_one_bit_constant_stmt (s : VerilogStmt) : Bool :=
  match s with
  | VerilogStmt.constantValues p _ => decide (p.get_width = 1)
  | VerilogStmt.wireConnection _ _ => false

/-- A wire-connection emission call. -/
def is_wire_stmt (s : VerilogStmt) : Bool :=
  match s with
  | VerilogStmt.constantValues _ _ => false
  | VerilogStmt.wireConnection _ _ => true

/-- Binding a some value in Option just applies the continuation. -/
theorem option_some_bind {α β : Type} (v : α) (k : α → Option β) :
    (some v >>= k) = k v :=
  rfl

/-- Length of a flatMap whose blocks all have the same length. -/
theorem length_flatMap_const {α β : Type} (g : α → List β) (c : Nat) :
    ∀ l : List α, (∀ a ∈ l, (g a).length = c) →
      (l.flatMap g).length = l.length * c := by
  intro l
  induction l with
  | nil => intro _; simp
  | cons x xs ih =>
    intro h
    rw [List.flatMap_cons, List.length_append, h x (List.mem_cons_self x xs),
      ih (fun a ha => h a (List.mem_cons_of_mem x ha)), List.length_cons]
    ring

/-! ## Claims C3 and C4 — GlobalPortBinder -/

/-- The circuit-library side of a non-clock global port of width 4 with
default value 1. -/
def c3CircuitPort : CircuitPort :=
  ⟨CircuitPortType.INPUT, 4, "op_sel", true, false, false, false, false, 1⟩

/-- The matching width-4 module global port. -/
def c3ModulePort : BasicPort :=
  ⟨"op_sel", 0, 3⟩

/-- C3 counterexample: for the width-4 non-clock global port with default
value 1 the binder makes exactly one constant-values emission call covering
the whole 4-bit port (values 1,1,1,1) and no 1-bit constant call at all —
not four individual 1-bit constant-1 assignments. -/
theorem claim_C3_counterexample :
    connect_one_global_port [c3CircuitPort] ["clk"] c3ModulePort =
      some [VerilogStmt.constantValues c3ModulePort [1, 1, 1, 1]] ∧
    ([VerilogStmt.constantValues c3ModulePort [1, 1, 1, 1]]).countP
      is_constant_stmt = 1 ∧
    ([VerilogStmt.constantValues c3ModulePort [1, 1, 1, 1]]).countP
      is_one_bit_constant_stmt = 0 ∧
    c3ModulePort.get_width = 4 := by
  decide

/-- C3 (amended): for a global port of the top module whose matched circuit
port is not a non-programming clock, the binder emits a single
constant-values call covering the full port width, with the circuit port
default value replicated once per bit (the per-bit splitting claimed by the
spec is not performed at the emission boundary; spec section 6 item 5 calls
this one multi-bit constant tie-off). -/
theorem claim_C3_amended (global_ports : List CircuitPort)
    (benchmark_clock_port_names : List String) (mp : BasicPort)
    (cp : CircuitPort)
    (hfind : find_linked_circuit_port global_ports mp.name = some cp)
    (hw : mp.get_width = cp.size)
    (hnc : ¬ (cp.ptype = CircuitPortType.CLOCK ∧ cp.is_prog = false)) :
    connect_one_global_port global_ports benchmark_clock_port_names mp =
      some [VerilogStmt.constantValues mp
        (List.replicate mp.get_width cp.default_value)] ∧
    (List.replicate mp.get_width cp.default_value).length = mp.get_width := by
  constructor
  · unfold connect_one_global_port
    rw [hfind, option_some_bind, if_pos hw, if_neg hnc]
  · simp

/-- C3 witness: the amended statement evaluated on the width-4 default-1
port. -/
theorem claim_C3_witness :
    connect_one_global_port [c3CircuitPort] ["clk"] c3ModulePort =
      some [VerilogStmt.constantValues c3ModulePort
        (List.replicate c3ModulePort.get_width c3CircuitPort.default_value)] ∧
    (List.replicate c3ModulePort.get_width c3CircuitPort.default_value).length =
      c3ModulePort.get_width :=
  claim_C3_amended [c3CircuitPort] ["clk"] c3ModulePort c3CircuitPort
    (by decide) (by decide) (by decide)

/-- C4: for a global port whose matched circuit port is a non-programming
CLOCK port, the binder emits exactly width times number-of-benchmark-clocks
wire connections, every one of them a 1-bit connection from one pin of the
port to one benchmark clock signal. -/
theorem claim_C4 (global_ports : List CircuitPort)
    (benchmark_clock_port_names : List String) (mp : BasicPort)
    (cp : CircuitPort)
    (hfind : find_linked_circuit_port global_ports mp.name = some cp)
    (hw : mp.get_width = cp.size)
    (hc : cp.ptype = CircuitPortType.CLOCK)
    (hp : cp.is_prog = false) :
    ∃ stmts,
      connect_one_global_port global_ports benchmark_clock_port_names mp =
        some stmts ∧
      stmts.length = mp.get_width * benchmark_clock_port_names.length ∧
      ∀ s ∈ stmts, ∃ pin ∈ mp.pins, ∃ cn ∈ benchmark_clock_port_names,
        s = VerilogStmt.wireConnection (BasicPort.mk mp.name pin pin)
          (BasicPort.mk (cn ++ formal_verification_port_suffix) 0 0) ∧
        (BasicPort.mk mp.name pin pin).get_width = 1 := by
  have hres : connect_one_global_port global_ports benchmark_clock_port_names mp =
      some (mp.pins.flatMap (fun pin =>
        benchmark_clock_port_names.map (fun cn =>
          VerilogStmt.wireConnection (BasicPort.mk mp.name pin pin)
            (BasicPort.mk (cn ++ formal_verification_port_suffix) 0 0)))) := by
    unfold connect_one_global_port
    rw [hfind, option_some_bind, if_pos hw, if_pos ⟨hc, hp⟩]
  refine ⟨_, hres, ?_, ?_⟩
  · rw [length_flatMap_const _ benchmark_clock_port_names.length _
      (fun pin _ => List.length_map _ _)]
    unfold BasicPort.pins
    rw [List.length_range']
  · intro s hs
    rw [List.mem_flatMap] at hs
    obtain ⟨pin, hpin, hs2⟩ := hs
    rw [List.mem_map] at hs2
    obtain ⟨cn, hcn, rfl⟩ := hs2
    refine ⟨pin, hpin, cn, hcn, rfl, ?_⟩
    simp [BasicPort.get_width]

/-- The circuit-library side of a width-1 non-programming clock port. -/
def c4CircuitPort : CircuitPort :=
  ⟨CircuitPortType.CLOCK, 1, "clk", true, false, false, false, false, 0⟩

/-- The matching width-1 module clock port. -/
def c4ModulePort : BasicPort :=
  ⟨"clk", 0, 0⟩

/-- C4 witness: a width-1 non-programming clock port with two benchmark
clock names yields exactly the two 1-bit wire connections from the same
port bit. -/
theorem claim_C4_witness :
    connect_one_global_port [c4CircuitPort] ["clkA", "clkB"] c4ModulePort =
      some [VerilogStmt.wireConnection (BasicPort.mk "clk" 0 0)
              (BasicPort.mk "clkA_fm" 0 0),
            VerilogStmt.wireConnection (BasicPort.mk "clk" 0 0)
              (BasicPort.mk "clkB_fm" 0 0)] ∧
    (2 : Nat) = c4ModulePort.get_width * 2 := by
  obtain ⟨stmts, h1, h2, h3⟩ := claim_C4 [c4CircuitPort] ["clkA", "clkB"]
    c4ModulePort c4CircuitPort (by decide) (by decide) (by decide) (by decide)
  have hlit : connect_one_global_port [c4CircuitPort] ["clkA", "clkB"]
      c4ModulePort =
      some [VerilogStmt.wireConnection (BasicPort.mk "clk" 0 0)
              (BasicPort.mk "clkA_fm" 0 0),
            VerilogStmt.wireConnection (BasicPort.mk "clk" 0 0)
              (BasicPort.mk "clkB_fm" 0 0)] := by
    decide
  refine ⟨hlit, ?_⟩
  rw [hlit] at h1
  injection h1 with hst
  have h4 : stmts.length = c4ModulePort.get_width * 2 := by
    simpa using h2
  rw [← h4, ← hst]
  decide

/-! ## Data model: bitstream manager and configuration bits -/

/-- Modelled from the spec: a configuration block has a name and an optional
parent block (absent only for the root), the blocks forming an arena indexed
by stable identity. -/
structure ConfigBlock where
  name : String
  parent_block : Option Nat
deriving DecidableEq

/-- Modelled from the spec: the bitstream manager owns the block arena. -/
structure BitstreamManager where
  blocks : List ConfigBlock

/-- A configuration bit: owning block, index within the owner, stored value
(bit_parent_block, bit_index_in_parent_block, bit_value). -/
structure ConfigBit where
  parent_block : Nat
  index_in_parent : Nat
  value : Nat
deriving DecidableEq

/-- BitstreamManager::block_name on a block index. -/
def BitstreamManager.block_name? (bm : BitstreamManager) (b : Nat) :
    Option String :=
  (bm.blocks.get? b).map ConfigBlock.name

/-- Modelled from the spec: the block → parent → … → root walk performed by
find_bitstream_manager_block_hierarchy, owner first; fuel-bounded by the
arena size, which suffices for every parent chain that reaches a root. -/
def ancestor_walk (bm : BitstreamManager) : Nat → Nat → List Nat
  | 0, _ => []
  | fuel + 1, b =>
    match bm.blocks.get? b with
    | none => [b]
    | some blk =>
      match blk.parent_block with
      | none => [b]
      | some p => b :: ancestor_walk bm fuel p

/-- Modelled from the spec: find_bitstream_manager_block_hierarchy returns
the ordered ancestor chain from the root down to the given block. -/
def find_bitstream_manager_block_hierarchy (bm : BitstreamManager) (b : Nat) :
    List Nat :=
  (ancestor_walk bm bm.blocks.length b).reverse

/-- The proposition that l is the root-first parent chain ending at block b:
the head is a root block and each later entry has the previous entry as its
parent. -/
inductive IsAncestorChain (bm : BitstreamManager) : List Nat → Nat → Prop
  | root (b : Nat) (blk : ConfigBlock) (hget : bm.blocks.get? b = some blk)
      (hpar : blk.parent_block = none) : IsAncestorChain bm [b] b
  | step (b p : Nat) (blk : ConfigBlock) (l : List Nat)
      (hget : bm.blocks.get? b = some blk) (hpar : blk.parent_block = some p)
      (hl : IsAncestorChain bm l p) : IsAncestorChain bm (l ++ [b]) b

/-- With enough fuel the walk reproduces exactly the parent chain, owner
first. -/
theorem ancestor_walk_eq (bm : BitstreamManager) (l : List Nat) (b : Nat)
    (h : IsAncestorChain bm l b) :
    ∀ fuel, l.length ≤ fuel → ancestor_walk bm fuel b = l.reverse := by
  induction h with
  | root b blk hget hpar =>
    intro fuel hf
    cases fuel with
    | zero => simp at hf
    | succ fuel =>
      have hget2 : bm.blocks[b]? = some blk := by
        rw [← List.get?_eq_getElem?]
        exact hget
      simp [ancestor_walk, hget2, hpar]
  | step b p blk l hget hpar hl ih =>
    intro fuel hf
    cases fuel with
    | zero =>
      exfalso
      rw [List.length_append] at hf
      simp at hf
    | succ fuel =>
      have hget2 : bm.blocks[b]? = some blk := by
        rw [← List.get?_eq_getElem?]
        exact hget
      have hlf : l.length ≤ fuel := by
        rw [List.length_append] at hf
        simp at hf
        omega
      have hstep : ancestor_walk bm (fuel + 1) b =
          b :: ancestor_walk bm fuel p := by
        simp [ancestor_walk, hget2, hpar]
      rw [hstep, ih fuel hlf, List.reverse_append]
      rfl

/-- The root-first hierarchy returned for a block with a valid chain. -/
theorem block_hierarchy_eq (bm : BitstreamManager) (l : List Nat) (b : Nat)
    (h : IsAncestorChain bm l b) (hlen : l.length ≤ bm.blocks.length) :
    find_bitstream_manager_block_hierarchy bm b = l := by
  unfold find_bitstream_manager_block_hierarchy
  rw [ancestor_walk_eq bm l b h _ hlen, List.reverse_reverse]

/-- Dotted join of a name list (hierarchy separator between components). -/
def dotJoin : List String → String
  | [] => ""
  | [x] => x
  | x :: y :: rest => x ++ "." ++ dotJoin (y :: rest)

/-- The path-accumulation loop is the dotted join headed by the seed. -/
theorem foldl_dot_eq_dotJoin :
    ∀ (l : List String) (a : String),
      l.foldl (fun acc nm => acc ++ "." ++ nm) a = dotJoin (a :: l) := by
  intro l
  induction l with
  | nil => intro a; rfl
  | cons x xs ih =>
    intro a
    rw [List.foldl_cons, ih (a ++ "." ++ x)]
    cases xs with
    | nil => rfl
    | cons y ys =>
      show dotJoin ((a ++ "." ++ x) :: y :: ys) = dotJoin (a :: x :: y :: ys)
      simp only [dotJoin]
      simp [String.append_assoc]

/-- Appending one component to a dotted join appends one separator and the
component. -/
theorem dotJoin_append_one :
    ∀ (l : List String) (a x : String),
      dotJoin (a :: (l ++ [x])) = dotJoin (a :: l) ++ "." ++ x := by
  intro l
  induction l with
  | nil => intro a x; rfl
  | cons y ys ih =>
    intro a x
    show dotJoin (a :: y :: (ys ++ [x])) = dotJoin (a :: y :: ys) ++ "." ++ x
    simp only [dotJoin]
    rw [ih y x]
    simp [String.append_assoc]

/-! ## Bitstream loading: print_verilog_preconfig_top_module_load_bitstream -/

/-- The dotted hierarchical wire name built by the loop body: the fixed uut
instance name substituted for the root, one dot-separated block name per
remaining hierarchy level, then the configuration chain data-out name. -/
def bit_hierarchy_path (uut_name : String) (names : List String) : String :=
  (names.foldl (fun acc nm => acc ++ "." ++ nm) uut_name) ++ "." ++
    config_chain_data_out_name

/-- Loop body of print_verilog_preconfig_top_module_load_bitstream for one
configuration bit: build the root-first hierarchy of the owning block,
VTR_ASSERT that the first entry is the top module (none on failure), drop
it, render the dotted path, and emit one constant-values call on the
bit-indexed wire with the stored bit value.  Name lookups are Option-valued
like every arena access. -/
def resolve_one_config_bit (bm : BitstreamManager) (top_name uut_name : String)
    (bit : ConfigBit) : Option VerilogStmt :=
  ((find_bitstream_manager_block_hierarchy bm bit.parent_block).head?).bind
    (fun first =>
      (bm.block_name? first).bind (fun first_name =>
        if top_name = first_name then
          (((find_bitstream_manager_block_hierarchy bm
              bit.parent_block).tail).mapM bm.block_name?).map (fun names =>
            VerilogStmt.constantValues
              (BasicPort.mk (bit_hierarchy_path uut_name names)
                bit.index_in_parent bit.index_in_parent)
              (List.replicate
                (BasicPort.mk (bit_hierarchy_path uut_name names)
                  bit.index_in_parent bit.index_in_parent).get_width
                bit.value))
        else none))

/-- The whole bitstream-loading loop, one emission per configuration bit in
caller-supplied order. -/
def load_bitstream (bm : BitstreamManager) (top_name : String) :
    List ConfigBit → Option (List VerilogStmt)
  | [] => some []
  | bit :: rest =>
    (resolve_one_config_bit bm top_name
      formal_verification_top_module_uut_name bit).bind (fun s =>
        (load_bitstream bm top_name rest).bind (fun others =>
          some (s :: others)))

/-- Binding a some value through Option.bind applies the continuation. -/
theorem option_bind_some {α β : Type} (v : α) (k : α → Option β) :
    (Option.some v).bind k = k v :=
  rfl

/-- Mapping over a some value applies the function. -/
theorem option_map_some {α β : Type} (g : α → β) (v : α) :
    (Option.some v).map g = some (g v) :=
  rfl

/-- The rendered path is the dotted join of instance name, intermediate
block names and the chain data-out name. -/
theorem bit_hierarchy_path_eq_dotJoin (uut : String) (names : List String) :
    bit_hierarchy_path uut names =
      dotJoin (uut :: (names ++ [config_chain_data_out_name])) := by
  unfold bit_hierarchy_path
  rw [foldl_dot_eq_dotJoin, dotJoin_append_one]

/-! ## Claims C5 and C6 — HierarchyPathResolver and bitstream order -/

/-- C5: for every configuration bit whose owning block has a valid
root-first ancestor chain, path resolution emits a 1-bit constant of the
stored value onto the wire whose dotted name is the instance name
(substituted for the root), then the names of the chain blocks below the
root, then the fixed configuration-chain data-out name, all joined by the
separator, bit-indexed by the bit's index within its owning block; a bit
owned directly by the root collapses to instance.terminal (the chain tail is
empty), independent of any sibling blocks in the arena; and the asserted
precondition is real: when the root block's name differs from the top module
name, resolution aborts instead of emitting. -/
theorem claim_C5 (bm : BitstreamManager) (top_name uut_name : String)
    (bit : ConfigBit) (r : Nat) (rest : List Nat) (rnames : List String)
    (hchain : IsAncestorChain bm (r :: rest) bit.parent_block)
    (hlen : (r :: rest).length ≤ bm.blocks.length)
    (hnames : rest.mapM bm.block_name? = some rnames) :
    (bm.block_name? r = some top_name →
      resolve_one_config_bit bm top_name uut_name bit =
        some (VerilogStmt.constantValues
          (BasicPort.mk
            (dotJoin (uut_name :: (rnames ++ [config_chain_data_out_name])))
            bit.index_in_parent bit.index_in_parent)
          [bit.value])) ∧
    (∀ rn, bm.block_name? r = some rn → rn ≠ top_name →
      resolve_one_config_bit bm top_name uut_name bit = none) := by
  have hh : find_bitstream_manager_block_hierarchy bm bit.parent_block =
      r :: rest := block_hierarchy_eq bm _ _ hchain hlen
  constructor
  · intro htop
    unfold resolve_one_config_bit
    rw [hh, List.head?_cons, option_bind_some, htop, option_bind_some,
      if_pos rfl, List.tail_cons, hnames, option_map_some]
    have hwid : (BasicPort.mk (bit_hierarchy_path uut_name rnames)
        bit.index_in_parent bit.index_in_parent).get_width = 1 := by
      simp [BasicPort.get_width]
    rw [hwid, bit_hierarchy_path_eq_dotJoin]
    rfl
  · intro rn hrn hne
    unfold resolve_one_config_bit
    rw [hh, List.head?_cons, option_bind_some, hrn, option_bind_some,
      if_neg (fun hh2 => hne hh2.symm)]

/-- The block arena of the witness: a root, a child and a grandchild. -/
def c5Bm : BitstreamManager :=
  ⟨[⟨"fpga_top", none⟩, ⟨"child", some 0⟩, ⟨"grandchild", some 1⟩]⟩

/-- A configuration bit three levels deep: owned by the grandchild block at
index 3 with value 1. -/
def c5Bit : ConfigBit :=
  ⟨2, 3, 1⟩

/-- The valid ancestor chain of the witness bit. -/
theorem c5Chain : IsAncestorChain c5Bm [0, 1, 2] 2 :=
  IsAncestorChain.step 2 1 ⟨"grandchild", some 1⟩ [0, 1] rfl rfl
    (IsAncestorChain.step 1 0 ⟨"child", some 0⟩ [0] rfl rfl
      (IsAncestorChain.root 0 ⟨"fpga_top", none⟩ rfl rfl))

/-- C5 witness: the three-level bit resolves to the dotted path through
child and grandchild, indexed at 3, assigning 1. -/
theorem claim_C5_witness :
    resolve_one_config_bit c5Bm "fpga_top" "FPGA_DUT" c5Bit =
      some (VerilogStmt.constantValues
        (BasicPort.mk "FPGA_DUT.child.grandchild.ccff_tail" 3 3) [1]) ∧
    dotJoin ["FPGA_DUT", "child", "grandchild", "ccff_tail"] =
      "FPGA_DUT.child.grandchild.ccff_tail" := by
  have h := (claim_C5 c5Bm "fpga_top" "FPGA_DUT" c5Bit 0 [1, 2]
    ["child", "grandchild"] c5Chain (by decide) (by decide)).1 (by decide)
  exact ⟨h, by decide⟩

/-- C6: the bitstream loader succeeds exactly bit-by-bit: when it returns a
statement list, that list has one entry per configuration bit and its i-th
entry is precisely the resolution of the i-th bit of the caller-supplied
sequence — no reordering or grouping by owning block. -/
theorem claim_C6 (bm : BitstreamManager) (top_name : String) :
    ∀ (bits : List ConfigBit) (stmts : List VerilogStmt),
      load_bitstream bm top_name bits = some stmts →
      stmts.length = bits.length ∧
      (∀ i : Nat, stmts.get? i = (bits.get? i).bind
        (resolve_one_config_bit bm top_name
          formal_verification_top_module_uut_name)) := by
  intro bits
  induction bits with
  | nil =>
    intro stmts h
    unfold load_bitstream at h
    injection h with h2
    subst h2
    refine ⟨rfl, ?_⟩
    intro i
    simp
  | cons bit rest ih =>
    intro stmts h
    unfold load_bitstream at h
    cases hres : resolve_one_config_bit bm top_name
        formal_verification_top_module_uut_name bit with
    | none =>
      rw [hres] at h
      simp at h
    | some s =>
      rw [hres, option_bind_some] at h
      cases hload : load_bitstream bm top_name rest with
      | none =>
        rw [hload] at h
        simp at h
      | some others =>
        rw [hload, option_bind_some] at h
        injection h with h2
        subst h2
        obtain ⟨hlen, hidx⟩ := ih others hload
        refine ⟨by simp [hlen], ?_⟩
        intro i
        cases i with
        | zero => simp [hres]
        | succ i =>
          show others.get? i = _
          rw [hidx i]
          rfl

/-- Bits spanning blocks at three different depths, supplied in an order
that interleaves the blocks. -/
def c6Bits : List ConfigBit :=
  [⟨0, 0, 1⟩, ⟨2, 5, 0⟩, ⟨1, 2, 1⟩]

/-- C6 witness: the loader emits the three assignments in input order — the
root-owned bit first, then the grandchild bit, then the child bit — and the
middle output is exactly the resolution of the middle input bit. -/
theorem claim_C6_witness :
    load_bitstream c5Bm "fpga_top" c6Bits =
      some [VerilogStmt.constantValues
              (BasicPort.mk "FPGA_DUT.ccff_tail" 0 0) [1],
            VerilogStmt.constantValues
              (BasicPort.mk "FPGA_DUT.child.grandchild.ccff_tail" 5 5) [0],
            VerilogStmt.constantValues
              (BasicPort.mk "FPGA_DUT.child.ccff_tail" 2 2) [1]] ∧
    (3 : Nat) = c6Bits.length ∧
    (some (VerilogStmt.constantValues
        (BasicPort.mk "FPGA_DUT.child.grandchild.ccff_tail" 5 5) [0]) :
      Option VerilogStmt) =
      (c6Bits.get? 1).bind (resolve_one_config_bit c5Bm "fpga_top"
        formal_verification_top_module_uut_name) := by
  have hload : load_bitstream c5Bm "fpga_top" c6Bits =
      some [VerilogStmt.constantValues
              (BasicPort.mk "FPGA_DUT.ccff_tail" 0 0) [1],
            VerilogStmt.constantValues
              (BasicPort.mk "FPGA_DUT.child.grandchild.ccff_tail" 5 5) [0],
            VerilogStmt.constantValues
              (BasicPort.mk "FPGA_DUT.child.ccff_tail" 2 2) [1]] := by
    decide
  obtain ⟨hlen, hidx⟩ := claim_C6 c5Bm "fpga_top" c6Bits _ hload
  exact ⟨hload, hlen, hidx 1⟩

/-! ## BenchmarkIOBinder: print_verilog_preconfig_top_module_connect_ios -/

/-- Logical block kinds distinguished by the binder. -/
inductive LogicalBlockType
  | VPACK_INPAD
  | VPACK_OUTPAD
  | VPACK_OTHER
deriving DecidableEq

/-- A benchmark logical block: name and kind. -/
structure LogicalBlock where
  name : String
  lbtype : LogicalBlockType
deriving DecidableEq

/-- An I/O logical block (VPACK_INPAD or VPACK_OUTPAD); all other kinds are
skipped by the binder loop. -/
def LogicalBlock.is_io (lb : LogicalBlock) : Bool :=
  decide (lb.lbtype = LogicalBlockType.VPACK_INPAD) ||
  decide (lb.lbtype = LogicalBlockType.VPACK_OUTPAD)

/-- Loop body of print_verilog_preconfig_top_module_connect_ios for one
logical block: skip non-I/O blocks; resolve the pad index through the
external placement lookup, VTR_ASSERT it is inside the port width (none on
failure), emit a 1-bit wire connection between that pad bit and the
benchmark signal named after the block, and mark the bit used. -/
def connect_ios_step (port : BasicPort) (find_io_index : LogicalBlock → Nat)
    (st : List Bool × List VerilogStmt) (lb : LogicalBlock) :
    Option (List Bool × List VerilogStmt) :=
  if lb.is_io = false then some st
  else
    if find_io_index lb < port.get_width then
      some (st.1.set (find_io_index lb) true,
        st.2 ++ [VerilogStmt.wireConnection
          (BasicPort.mk port.name (find_io_index lb) (find_io_index lb))
          (BasicPort.mk (lb.name ++ formal_verification_port_suffix) 0 0)])
    else none

/-- print_verilog_preconfig_top_module_connect_ios: VTR_ASSERT exactly one
datapath-I/O (GPIO) port on the top module (none otherwise); run the
per-block step over all logical blocks starting from an all-unused bitmap
sized to the port width; finally tie every still-unused bit, lowest index
first, to the unused tie value with an individual 1-bit constant call. -/
def connect_ios (module_io_ports : List BasicPort)
    (blocks : List LogicalBlock) (find_io_index : LogicalBlock → Nat)
    (unused_tie_value : Nat) : Option (List VerilogStmt) :=
  match module_io_ports with
  | [port] =>
    (blocks.foldlM (connect_ios_step port find_io_index)
      (List.replicate port.get_width false, ([] : List VerilogStmt))).map
      (fun st => st.2 ++
        ((List.range port.get_width).filter
          (fun i => ! st.1.getD i false)).map
          (fun i => VerilogStmt.constantValues (BasicPort.mk port.name i i)
            (List.replicate (BasicPort.mk port.name i i).get_width
              unused_tie_value)))
  | _ => none

/-- The wire connections the block loop emits, in block order. -/
def io_wire_stmts (port : BasicPort) (find_io_index : LogicalBlock → Nat)
    (blocks : List LogicalBlock) : List VerilogStmt :=
  (blocks.filter LogicalBlock.is_io).map (fun lb =>
    VerilogStmt.wireConnection
      (BasicPort.mk port.name (find_io_index lb) (find_io_index lb))
      (BasicPort.mk (lb.name ++ formal_verification_port_suffix) 0 0))

/-- The pad indices the I/O blocks resolve to, in block order. -/
def io_mapped_indices (find_io_index : LogicalBlock → Nat)
    (blocks : List LogicalBlock) : List Nat :=
  (blocks.filter LogicalBlock.is_io).map find_io_index

/-- A wire-connection emission whose module-side slice is bit i of the named
port. -/
def is_wire_at (nm : String) (i : Nat) (s : VerilogStmt) : Bool :=
  match s with
  | VerilogStmt.wireConnection src _ =>
    decide (src.name = nm) && decide (src.lsb = i) && decide (src.msb = i)
  | VerilogStmt.constantValues _ _ => false

/-- A constant-values emission whose target slice is bit i of the named
port. -/
def is_tie_at (nm : String) (i : Nat) (s : VerilogStmt) : Bool :=
  match s with
  | VerilogStmt.constantValues p _ =>
    decide (p.name = nm) && decide (p.lsb = i) && decide (p.msb = i)
  | VerilogStmt.wireConnection _ _ => false

/-- Setting a bit of the bitmap: reading back sees the old bitmap or the
newly set index. -/
theorem getD_set_true (l : List Bool) (idx : Nat) (hidx : idx < l.length)
    (i : Nat) :
    ((l.set idx true).getD i false = true) ↔
      (l.getD i false = true ∨ i = idx) := by
  by_cases h : i = idx
  · subst h
    rw [List.getD_eq_getElem?_getD, List.getElem?_set_self hidx]
    simp
  · have hne : idx ≠ i := fun hh => h hh.symm
    rw [List.getD_eq_getElem?_getD, List.getD_eq_getElem?_getD,
      List.getElem?_set_ne hne]
    constructor
    · exact Or.inl
    · intro hor
      rcases hor with h1 | h1
      · exact h1
      · exact absurd h1 h

/-- Characterization of the block loop: with all resolved indices in range
it never faults, appends exactly one wire connection per I/O block in block
order, and the final bitmap marks exactly the previously used bits plus the
resolved indices. -/
theorem connect_ios_fold_eq (port : BasicPort) (f : LogicalBlock → Nat) :
    ∀ (blocks : List LogicalBlock) (used0 : List Bool) (s0 : List VerilogStmt),
      (∀ lb ∈ blocks, lb.is_io = true → f lb < port.get_width) →
      used0.length = port.get_width →
      ∃ usedF,
        blocks.foldlM (connect_ios_step port f) (used0, s0) =
          some (usedF, s0 ++ io_wire_stmts port f blocks) ∧
        usedF.length = port.get_width ∧
        (∀ i, usedF.getD i false = true ↔
          (used0.getD i false = true ∨ i ∈ io_mapped_indices f blocks)) := by
  intro blocks
  induction blocks with
  | nil =>
    intro used0 s0 _ hlen0
    refine ⟨used0, ?_, hlen0, ?_⟩
    · simp [io_wire_stmts]
    · intro i
      simp [io_mapped_indices]
  | cons lb bs ih =>
    intro used0 s0 hrange hlen0
    rw [List.foldlM_cons]
    by_cases hio : lb.is_io = true
    · have hidx : f lb < port.get_width :=
        hrange lb (List.mem_cons_self lb bs) hio
      have hstep : connect_ios_step port f (used0, s0) lb =
          some (used0.set (f lb) true,
            s0 ++ [VerilogStmt.wireConnection
              (BasicPort.mk port.name (f lb) (f lb))
              (BasicPort.mk (lb.name ++ formal_verification_port_suffix) 0 0)]) := by
        unfold connect_ios_step
        rw [if_neg (by rw [hio]; intro hh; cases hh), if_pos hidx]
      rw [hstep, option_some_bind]
      obtain ⟨usedF, hfold, hlenF, hbits⟩ := ih (used0.set (f lb) true)
        (s0 ++ [VerilogStmt.wireConnection
          (BasicPort.mk port.name (f lb) (f lb))
          (BasicPort.mk (lb.name ++ formal_verification_port_suffix) 0 0)])
        (fun b hb hbio => hrange b (List.mem_cons_of_mem lb hb) hbio)
        (by rw [List.length_set]; exact hlen0)
      refine ⟨usedF, ?_, hlenF, ?_⟩
      · rw [hfold]
        unfold io_wire_stmts
        rw [List.filter_cons_of_pos hio, List.map_cons, List.append_assoc]
        rfl
      · intro i
        rw [hbits i, getD_set_true used0 (f lb) (by rw [hlen0]; exact hidx) i]
        unfold io_mapped_indices
        rw [List.filter_cons_of_pos hio, List.map_cons, List.mem_cons]
        constructor
        · rintro ((h1 | h1) | h1)
          · exact Or.inl h1
          · exact Or.inr (Or.inl h1)
          · exact Or.inr (Or.inr h1)
        · rintro (h1 | h1 | h1)
          · exact Or.inl (Or.inl h1)
          · exact Or.inl (Or.inr h1)
          · exact Or.inr h1
    · have hstep : connect_ios_step port f (used0, s0) lb = some (used0, s0) := by
        unfold connect_ios_step
        rw [if_pos (by revert hio; cases lb.is_io <;> simp)]
      rw [hstep, option_some_bind]
      obtain ⟨usedF, hfold, hlenF, hbits⟩ := ih used0 s0
        (fun b hb hbio => hrange b (List.mem_cons_of_mem lb hb) hbio) hlen0
      refine ⟨usedF, ?_, hlenF, ?_⟩
      · rw [hfold]
        unfold io_wire_stmts
        rw [List.filter_cons_of_neg hio]
      · intro i
        rw [hbits i]
        unfold io_mapped_indices
        rw [List.filter_cons_of_neg hio]

/-- The all-false bitmap reads false everywhere. -/
theorem getD_replicate_false : ∀ n i : Nat,
    (List.replicate n false).getD i false = false := by
  intro n
  induction n with
  | zero => intro i; rfl
  | succ n ih =>
    intro i
    cases i with
    | zero => rfl
    | succ i => exact ih i

/-- Counting occurrences of a member of a duplicate-free list gives one. -/
theorem countP_eq_one_of_nodup_mem {l : List Nat} {i : Nat} (h : l.Nodup)
    (hm : i ∈ l) : l.countP (fun x => decide (x = i)) = 1 := by
  induction l with
  | nil => cases hm
  | cons x xs ih =>
    rw [List.countP_cons]
    rcases List.mem_cons.mp hm with h1 | h1
    · subst h1
      have hnx : i ∉ xs := (List.nodup_cons.mp h).1
      have h0 : xs.countP (fun y => decide (y = i)) = 0 := by
        rw [List.countP_eq_zero]
        intro a ha
        simp only [decide_eq_true_eq]
        exact fun he => hnx (he ▸ ha)
      rw [h0]
      simp
    · have hxi : ¬ (x = i) := fun he => (List.nodup_cons.mp h).1 (he ▸ h1)
      rw [ih (List.nodup_cons.mp h).2 h1]
      simp [hxi]

/-- Counting occurrences of a non-member gives zero. -/
theorem countP_eq_zero_of_not_mem {l : List Nat} {i : Nat} (h : i ∉ l) :
    l.countP (fun x => decide (x = i)) = 0 := by
  rw [List.countP_eq_zero]
  intro a ha
  simp only [decide_eq_true_eq]
  exact fun he => h (he ▸ ha)

/-- C7 (amended): with exactly one datapath-I/O port, every resolved pad
index inside the port width, and distinct entries resolving to distinct pad
indices, the binder emits one 1-bit wire connection per I/O block (in block
order) followed by one 1-bit tie-off per unmapped bit (lowest first), so
every pad bit below the width receives exactly one emission: one wire
connection when some block maps to it, otherwise one tie-off; without the
distinctness proviso a doubly mapped bit receives one wire per mapping. -/
theorem claim_C7_amended (port : BasicPort) (blocks : List LogicalBlock)
    (find_io_index : LogicalBlock → Nat) (unused_tie_value : Nat)
    (hrange : ∀ lb ∈ blocks, lb.is_io = true →
      find_io_index lb < port.get_width)
    (hnodup : (io_mapped_indices find_io_index blocks).Nodup) :
    ∃ stmts,
      connect_ios [port] blocks find_io_index unused_tie_value = some stmts ∧
      stmts = io_wire_stmts port find_io_index blocks ++
        ((List.range port.get_width).filter
          (fun i => ! decide (i ∈ io_mapped_indices find_io_index blocks))).map
          (fun i => VerilogStmt.constantValues (BasicPort.mk port.name i i)
            (List.replicate 1 unused_tie_value)) ∧
      (∀ i, i < port.get_width →
        i ∈ io_mapped_indices find_io_index blocks →
        stmts.countP (is_wire_at port.name i) = 1 ∧
        stmts.countP (is_tie_at port.name i) = 0) ∧
      (∀ i, i < port.get_width →
        i ∉ io_mapped_indices find_io_index blocks →
        stmts.countP (is_wire_at port.name i) = 0 ∧
        stmts.countP (is_tie_at port.name i) = 1) := by
  obtain ⟨usedF, hfold, hlenF, hbits⟩ := connect_ios_fold_eq port find_io_index
    blocks (List.replicate port.get_width false) [] hrange
    (List.length_replicate port.get_width false)
  have hfilter : (List.range port.get_width).filter
      (fun i => ! usedF.getD i false) =
      (List.range port.get_width).filter
        (fun i => ! decide (i ∈ io_mapped_indices find_io_index blocks)) := by
    apply List.filter_congr
    intro i _
    cases hb : usedF.getD i false with
    | true =>
      have hmem : i ∈ io_mapped_indices find_io_index blocks := by
        rcases (hbits i).mp hb with h1 | h1
        · rw [getD_replicate_false] at h1
          cases h1
        · exact h1
      simp [hmem]
    | false =>
      have hmem : i ∉ io_mapped_indices find_io_index blocks := by
        intro hm
        have h2 := (hbits i).mpr (Or.inr hm)
        rw [hb] at h2
        cases h2
      simp [hmem]
  have hrepl : ((List.range port.get_width).filter
      (fun i => ! decide (i ∈ io_mapped_indices find_io_index blocks))).map
      (fun i => VerilogStmt.constantValues (BasicPort.mk port.name i i)
        (List.replicate (BasicPort.mk port.name i i).get_width
          unused_tie_value)) =
      ((List.range port.get_width).filter
        (fun i => ! decide (i ∈ io_mapped_indices find_io_index blocks))).map
      (fun i => VerilogStmt.constantValues (BasicPort.mk port.name i i)
        (List.replicate 1 unused_tie_value)) := by
    apply List.map_congr_left
    intro i _
    have hone : (BasicPort.mk port.name i i).get_width = 1 := by
      simp [BasicPort.get_width]
    rw [hone]
  have hstmts : connect_ios [port] blocks find_io_index unused_tie_value =
      some (io_wire_stmts port find_io_index blocks ++
        ((List.range port.get_width).filter
          (fun i => ! decide (i ∈ io_mapped_indices find_io_index blocks))).map
          (fun i => VerilogStmt.constantValues (BasicPort.mk port.name i i)
            (List.replicate 1 unused_tie_value))) := by
    have hdef : connect_ios [port] blocks find_io_index unused_tie_value =
        (blocks.foldlM (connect_ios_step port find_io_index)
          (List.replicate port.get_width false,
            ([] : List VerilogStmt))).map
          (fun st => st.2 ++
            ((List.range port.get_width).filter
              (fun i => ! st.1.getD i false)).map
              (fun i => VerilogStmt.constantValues (BasicPort.mk port.name i i)
                (List.replicate (BasicPort.mk port.name i i).get_width
                  unused_tie_value))) := rfl
    rw [hdef, hfold, option_map_some]
    show some (([] ++ io_wire_stmts port find_io_index blocks) ++
      ((List.range port.get_width).filter
        (fun i => ! usedF.getD i false)).map
        (fun i => VerilogStmt.constantValues (BasicPort.mk port.name i i)
          (List.replicate (BasicPort.mk port.name i i).get_width
            unused_tie_value))) = _
    rw [hfilter, hrepl, List.nil_append]
  refine ⟨_, hstmts, rfl, ?_, ?_⟩
  · intro i hi hmem
    constructor
    · rw [List.countP_append]
      have hwires : (io_wire_stmts port find_io_index blocks).countP
          (is_wire_at port.name i) =
          (io_mapped_indices find_io_index blocks).countP
            (fun x => decide (x = i)) := by
        unfold io_wire_stmts io_mapped_indices
        rw [List.countP_map, List.countP_map]
        apply List.countP_congr
        intro lb _
        simp [is_wire_at, Function.comp]
      have hties : (((List.range port.get_width).filter
          (fun j => ! decide (j ∈ io_mapped_indices find_io_index blocks))).map
          (fun j => VerilogStmt.constantValues (BasicPort.mk port.name j j)
            (List.replicate 1 unused_tie_value))).countP
          (is_wire_at port.name i) = 0 := by
        rw [List.countP_eq_zero]
        intro s hs
        rw [List.mem_map] at hs
        obtain ⟨j, _, rfl⟩ := hs
        simp [is_wire_at]
      rw [hwires, hties, countP_eq_one_of_nodup_mem hnodup hmem]
    · rw [List.countP_append]
      have hwires : (io_wire_stmts port find_io_index blocks).countP
          (is_tie_at port.name i) = 0 := by
        rw [List.countP_eq_zero]
        intro s hs
        unfold io_wire_stmts at hs
        rw [List.mem_map] at hs
        obtain ⟨lb, _, rfl⟩ := hs
        simp [is_tie_at]
      have hties : (((List.range port.get_width).filter
          (fun j => ! decide (j ∈ io_mapped_indices find_io_index blocks))).map
          (fun j => VerilogStmt.constantValues (BasicPort.mk port.name j j)
            (List.replicate 1 unused_tie_value))).countP
          (is_tie_at port.name i) = 0 := by
        rw [List.countP_map]
        have hnm : i ∉ (List.range port.get_width).filter
            (fun j => ! decide (j ∈ io_mapped_indices find_io_index blocks)) := by
          intro hmf
          rw [List.mem_filter] at hmf
          simp [hmem] at hmf
        rw [← countP_eq_zero_of_not_mem hnm]
        apply List.countP_congr
        intro j _
        simp [is_tie_at, Function.comp]
      rw [hwires, hties]
  · intro i hi hmem
    constructor
    · rw [List.countP_append]
      have hwires : (io_wire_stmts port find_io_index blocks).countP
          (is_wire_at port.name i) =
          (io_mapped_indices find_io_index blocks).countP
            (fun x => decide (x = i)) := by
        unfold io_wire_stmts io_mapped_indices
        rw [List.countP_map, List.countP_map]
        apply List.countP_congr
        intro lb _
        simp [is_wire_at, Function.comp]
      have hties : (((List.range port.get_width).filter
          (fun j => ! decide (j ∈ io_mapped_indices find_io_index blocks))).map
          (fun j => VerilogStmt.constantValues (BasicPort.mk port.name j j)
            (List.replicate 1 unused_tie_value))).countP
          (is_wire_at port.name i) = 0 := by
        rw [List.countP_eq_zero]
        intro s hs
        rw [List.mem_map] at hs
        obtain ⟨j, _, rfl⟩ := hs
        simp [is_wire_at]
      rw [hwires, hties, countP_eq_zero_of_not_mem hmem]
    · rw [List.countP_append]
      have hwires : (io_wire_stmts port find_io_index blocks).countP
          (is_tie_at port.name i) = 0 := by
        rw [List.countP_eq_zero]
        intro s hs
        unfold io_wire_stmts at hs
        rw [List.mem_map] at hs
        obtain ⟨lb, _, rfl⟩ := hs
        simp [is_tie_at]
      have hmf : i ∈ (List.range port.get_width).filter
          (fun j => ! decide (j ∈ io_mapped_indices find_io_index blocks)) := by
        rw [List.mem_filter]
        exact ⟨List.mem_range.mpr hi, by simp [hmem]⟩
      have hnodupf : ((List.range port.get_width).filter
          (fun j => ! decide (j ∈ io_mapped_indices find_io_index blocks))).Nodup :=
        (List.nodup_range port.get_width).filter _
      have hties : (((List.range port.get_width).filter
          (fun j => ! decide (j ∈ io_mapped_indices find_io_index blocks))).map
          (fun j => VerilogStmt.constantValues (BasicPort.mk port.name j j)
            (List.replicate 1 unused_tie_value))).countP
          (is_tie_at port.name i) = 1 := by
        rw [List.countP_map]
        rw [← countP_eq_one_of_nodup_mem hnodupf hmf]
        apply List.countP_congr
        intro j _
        simp [is_tie_at, Function.comp]
      rw [hwires, hties]

/-- A width-4 datapath-I/O port for the C7 counterexample. -/
def c7cePort : BasicPort :=
  ⟨"gpio", 0, 3⟩

/-- An INPAD block resolving to pad index 2. -/
def c7ceBlockA : LogicalBlock :=
  ⟨"ba", LogicalBlockType.VPACK_INPAD⟩

/-- An OUTPAD block also resolving to pad index 2. -/
def c7ceBlockB : LogicalBlock :=
  ⟨"bb", LogicalBlockType.VPACK_OUTPAD⟩

/-- A placement lookup sending both blocks to pad index 2. -/
def c7ceLookup : LogicalBlock → Nat :=
  fun _ => 2

/-- The emission list the binder produces in the counterexample run. -/
def c7ceStmts : List VerilogStmt :=
  [VerilogStmt.wireConnection (BasicPort.mk "gpio" 2 2)
    (BasicPort.mk "ba_fm" 0 0),
   VerilogStmt.wireConnection (BasicPort.mk "gpio" 2 2)
    (BasicPort.mk "bb_fm" 0 0),
   VerilogStmt.constantValues (BasicPort.mk "gpio" 0 0) [0],
   VerilogStmt.constantValues (BasicPort.mk "gpio" 1 1) [0],
   VerilogStmt.constantValues (BasicPort.mk "gpio" 3 3) [0]]

/-- C7 counterexample: two I/O blocks whose placement lookup resolves to the
same pad index 2 of a width-4 port satisfy the claim's stated preconditions
(one datapath-I/O port, every resolved index below the width), yet pad bit 2
receives two emissions — two wire connections — not exactly one. -/
theorem claim_C7_counterexample :
    c7ceBlockA.is_io = true ∧ c7ceBlockB.is_io = true ∧
    c7ceLookup c7ceBlockA < c7cePort.get_width ∧
    c7ceLookup c7ceBlockB < c7cePort.get_width ∧
    connect_ios [c7cePort] [c7ceBlockA, c7ceBlockB] c7ceLookup 0 =
      some c7ceStmts ∧
    c7ceStmts.countP
      (fun s => is_wire_at "gpio" 2 s || is_tie_at "gpio" 2 s) = 2 := by
  decide

/-- A width-8 datapath-I/O port for the C7 witness. -/
def c7wPort : BasicPort :=
  ⟨"gpio", 0, 7⟩

/-- An INPAD block named in0. -/
def c7wBlockA : LogicalBlock :=
  ⟨"in0", LogicalBlockType.VPACK_INPAD⟩

/-- An OUTPAD block named out0. -/
def c7wBlockB : LogicalBlock :=
  ⟨"out0", LogicalBlockType.VPACK_OUTPAD⟩

/-- A placement lookup resolving in0 to pad 2 and everything else to pad 5. -/
def c7wLookup : LogicalBlock → Nat :=
  fun lb => if lb.name = "in0" then 2 else 5

/-- The emission list of the witness run: two wires (bits 2 and 5) then six
tie-offs (bits 0, 1, 3, 4, 6, 7), each a single bit. -/
def c7wExpected : List VerilogStmt :=
  [VerilogStmt.wireConnection (BasicPort.mk "gpio" 2 2)
    (BasicPort.mk "in0_fm" 0 0),
   VerilogStmt.wireConnection (BasicPort.mk "gpio" 5 5)
    (BasicPort.mk "out0_fm" 0 0),
   VerilogStmt.constantValues (BasicPort.mk "gpio" 0 0) [0],
   VerilogStmt.constantValues (BasicPort.mk "gpio" 1 1) [0],
   VerilogStmt.constantValues (BasicPort.mk "gpio" 3 3) [0],
   VerilogStmt.constantValues (BasicPort.mk "gpio" 4 4) [0],
   VerilogStmt.constantValues (BasicPort.mk "gpio" 6 6) [0],
   VerilogStmt.constantValues (BasicPort.mk "gpio" 7 7) [0]]

/-- C7 witness: the width-8 port with blocks mapped to pads 2 and 5 gets
exactly two 1-bit wire connections and six 1-bit tie-offs, with bit 2
receiving exactly one wire and no tie and bit 0 exactly one tie. -/
theorem claim_C7_witness :
    connect_ios [c7wPort] [c7wBlockA, c7wBlockB] c7wLookup 0 =
      some c7wExpected ∧
    c7wExpected.countP is_wire_stmt = 2 ∧
    c7wExpected.countP is_constant_stmt = 6 ∧
    c7wExpected.countP (is_wire_at "gpio" 2) = 1 ∧
    c7wExpected.countP (is_tie_at "gpio" 2) = 0 ∧
    c7wExpected.countP (is_tie_at "gpio" 0) = 1 := by
  obtain ⟨stmts, h1, h2, h3, h4⟩ := claim_C7_amended c7wPort
    [c7wBlockA, c7wBlockB] c7wLookup 0 (by decide) (by decide)
  have hlit : connect_ios [c7wPort] [c7wBlockA, c7wBlockB] c7wLookup 0 =
      some c7wExpected := by decide
  rw [hlit] at h1
  injection h1 with h5
  refine ⟨hlit, by decide, by decide, ?_, ?_, ?_⟩
  · have hx := (h3 2 (by decide) (by decide)).1
    rw [← h5] at hx
    exact hx
  · have hx := (h3 2 (by decide) (by decide)).2
    rw [← h5] at hx
    exact hx
  · have hx := (h4 0 (by decide) (by decide)).2
    rw [← h5] at hx
    exact hx
